import Mathlib

/-
Formal model of the Bing search automation program (TheCode.py).

The development shallowly embeds the parts of the program that the
verification is about:
  - the settings store (class Config: load/save with default merging),
  - the run controller (BingSearchAutomation.perform_search with its
    per-phrase retry loop, BingSearchAutomation.start_search_thread),
  - the auto-run scheduler (SearchAutomationGUI.maybe_auto_run and
    SearchAutomationGUI._restore_headless_after_run).

External effects are passed in as explicit parameters: the file system is a
pair of functions (isfile, readLines), the browser driver is an outcome
oracle (phrase index and attempt index to ok/timeout/fault), the running
flag read by the worker is a schedule of boolean values indexed by the
number of reads performed so far, and the settings file is a DiskState.
-/

namespace BingAuto

/-! ## Settings store (class Config, TheCode.py lines 29-73) -/

/-- Values stored in the configuration.  jTuple is a Python tuple such as
the default search_delay (3, 7); jList is a Python list, which is what a
JSON array parses back to.  Python equality distinguishes them: a tuple
never equals a list, and json.dump writes a tuple as an array. -/
inductive JVal
  | jNull
  | jBool (b : Bool)
  | jInt (n : Int)
  | jStr (s : String)
  | jTuple (a b : Int)
  | jList (a b : Int)
deriving DecidableEq, Repr

/-- A JSON object: a partial map from key names to values. -/
def JObj := String → Option JVal

/-- DEFAULT_CONFIG (TheCode.py lines 30-46). -/
def defaultConfig : JObj := fun k =>
  if k = "search_delay" then some (.jTuple 3 7)
  else if k = "page_load_timeout" then some (.jInt 30)
  else if k = "max_retries" then some (.jInt 3)
  else if k = "save_log" then some (.jBool true)
  else if k = "headless_mode" then some (.jBool false)
  else if k = "appearance_mode" then some (.jStr ("System"))
  else if k = "color_theme" then some (.jStr ("blue"))
  else if k = "auto_search_enabled" then some (.jBool false)
  else if k = "auto_search_interval_hours" then some (.jInt 24)
  else if k = "last_auto_search" then some .jNull
  else if k = "run_on_startup" then some (.jBool false)
  else if k = "last_search_file" then some (.jStr (""))
  else if k = "last_driver_path" then some (.jStr (""))
  else none

/-- State of the config.json file on disk. -/
inductive DiskState
  | missing
  | corrupt
  | stored (j : JObj)

/-- Python dict merge: the second object overrides the first,
as in the expression with a double-splat of DEFAULT_CONFIG then the
parsed file contents (TheCode.py line 60). -/
def mergeOver (base over : JObj) : JObj := fun k =>
  match over k with
  | some v => some v
  | none => base k

/-- Config.load (TheCode.py lines 56-65): merged config on a readable file,
defaults when the file is missing or fails to parse. -/
def Config.load : DiskState → JObj
  | .missing => defaultConfig
  | .corrupt => defaultConfig
  | .stored j => mergeOver defaultConfig j

/-- One configuration value as json.dump writes it and json.load reads it
back (TheCode.py lines 60 and 71): a Python tuple is serialized as a JSON
array, which parses back as a list; every other value round-trips
unchanged. -/
def jsonifyVal : JVal → JVal
  | .jTuple a b => .jList a b
  | v => v

/-- The object that json.dump writes for a configuration, as json.load
reads it back: every value passed through the serialization. -/
def toJson (c : JObj) : JObj := fun k => (c k).map jsonifyVal

/-- Config.save (TheCode.py lines 67-73): json.dump writes the full
object, serializing tuples to arrays; any write failure is logged and
swallowed, leaving the disk unchanged.  saveOk tells whether the write
succeeded. -/
def Config.save (c : JObj) (saveOk : Bool) (d : DiskState) : DiskState :=
  if saveOk then .stored (toJson c) else d

/-- Functional update of one key of a JSON object (a Python dict literal
with a double-splat of the old dict plus one overriding key). -/
def setKey (c : JObj) (k : String) (v : JVal) : JObj := fun k' =>
  if k' = k then some v else c k'

/-- Read one key of the on-disk settings file. -/
def diskGet (d : DiskState) (k : String) : Option JVal :=
  match d with
  | .stored j => j k
  | _ => none

/-! ## Run controller state and start (TheCode.py lines 88-96, 207-221) -/

/-- Observable errors raised by perform_search (TheCode.py lines 133-189):
FileNotFoundError for a missing path, ValueError for an empty phrase file,
the wrapped setup exception from setup_driver, and the re-raised
WebDriverException from the search loop. -/
inductive RunError
  | notFound (path : String)
  | emptyInput
  | setupFailed
  | sessionFault
deriving DecidableEq, Repr

/-- Controller state: the is_running flag, the worker thread
(none before the first start; some alive, where alive says whether the
thread is still executing), and the progress counters shown by the UI. -/
structure ControllerState where
  is_running : Bool
  search_thread : Option Bool
  progress : Nat × Nat
deriving DecidableEq, Repr

/-- start_search_thread (TheCode.py lines 207-217): return unchanged if a
worker thread is alive, otherwise set the running flag and spawn a worker.
The boolean result records whether a new worker was spawned. -/
def start_search_thread (s : ControllerState) : ControllerState × Bool :=
  match s.search_thread with
  | some true => (s, false)
  | _ => ({ s with is_running := true, search_thread := some true }, true)

/-- Python str.strip with no argument: drop whitespace from both ends. -/
def strip (s : String) : String :=
  ⟨((s.data.dropWhile Char.isWhitespace).reverse.dropWhile Char.isWhitespace).reverse⟩

/-- The validation phase at the top of perform_search
(TheCode.py lines 134-147): check both paths, read and strip the phrase
file keeping the non-blank lines, fail on an empty result. -/
def validatePhase (isfile : String → Bool) (readLines : String → List String)
    (search_file driver_path : String) : Except RunError (List String) :=
  if isfile search_file = false then .error (.notFound search_file)
  else if isfile driver_path = false then .error (.notFound driver_path)
  else
    let searches := ((readLines search_file).map strip).filter (fun l => l != "")
    if searches = [] then .error .emptyInput
    else .ok searches

/-- Outcome of one call to start_search_thread together with what the
spawned worker then does up to and including its validation phase.
syncError is an exception propagating to the caller of
start_search_thread before it returns; workerError is an exception raised
later inside the background thread. -/
structure StartOutcome where
  syncError : Option RunError
  state : ControllerState
  spawned : Bool
  workerError : Option RunError

/-- start_search_thread followed by the validation phase of the worker it
spawns (TheCode.py lines 207-217 then 134-147).  The body of
start_search_thread performs no validation and raises nothing; the path
checks and the empty-file check run inside the thread target
perform_search. -/
def start_search_thread_run (s : ControllerState) (isfile : String → Bool)
    (readLines : String → List String) (sf dp : String) : StartOutcome :=
  match s.search_thread with
  | some true => { syncError := none, state := s, spawned := false, workerError := none }
  | _ =>
    let s1 : ControllerState := { s with is_running := true, search_thread := some true }
    let w :=
      match validatePhase isfile readLines sf dp with
      | .error e => some e
      | .ok _ => none
    { syncError := none, state := s1, spawned := true, workerError := w }

/-! ## Auto-run scheduler (TheCode.py lines 724-768) -/

/-- The due computation inside maybe_auto_run (TheCode.py lines 732-740):
due is true when the stored value is absent or falsy, or when parsing it
raises, and otherwise compares the elapsed seconds against the interval in
hours times 3600.  fromiso is the datetime.fromisoformat oracle, returning
the parsed timestamp in seconds or none when parsing raises. -/
def dueCheck (last_run_iso : Option String) (fromiso : String → Option Int)
    (now interval_hours : Int) : Bool :=
  match last_run_iso with
  | none => true
  | some s =>
    if s = "" then true
    else
      match fromiso s with
      | none => true
      | some last_dt => decide (now - last_dt ≥ interval_hours * 3600)

/-- The launch decision of maybe_auto_run (TheCode.py lines 724-747): each
early return yields false; reaching the call to start_search_thread yields
true. -/
def maybe_auto_run_launches (auto_search_enabled : Bool)
    (search_file driver_path : String) (isfile : String → Bool)
    (last_run_iso : Option String) (fromiso : String → Option Int)
    (now interval_hours : Int) : Bool :=
  if auto_search_enabled = false then false
  else if search_file = "" then false
  else if driver_path = "" then false
  else if isfile search_file = false then false
  else if isfile driver_path = false then false
  else if dueCheck last_run_iso fromiso now interval_hours = false then false
  else true

/-- Due-ness as the claim words it: due when no last-run timestamp exists
or it fails to parse, and otherwise when the elapsed time is at least the
interval converted to seconds. -/
def dueAsSpecified (last_run_iso : Option String) (fromiso : String → Option Int)
    (now interval_hours : Int) : Prop :=
  match last_run_iso with
  | none => True
  | some s =>
    match fromiso s with
    | none => True
    | some t => now - t ≥ interval_hours * 3600

/-- The timestamp stamp at the end of a run (TheCode.py lines 185-187):
the automation config with last_auto_search set to the current time. -/
def record_last_auto_search (cfg : JObj) (now : String) : JObj :=
  setKey cfg ("last_auto_search") (.jStr now)

/-- _restore_headless_after_run, restore step once the running flag is
false (TheCode.py lines 762-766): build the GUI config with only
headless_mode replaced, save it, and return the new config together with
the new disk state. -/
def restore_headless_after_run (guiConfig : JObj) (previous_headless : Bool)
    (saveOk : Bool) (d : DiskState) : JObj × DiskState :=
  let new_cfg := setKey guiConfig ("headless_mode") (.jBool previous_headless)
  (new_cfg, Config.save new_cfg saveOk d)

/-! ## The worker loop of perform_search (TheCode.py lines 149-189) -/

/-- Outcome of one call to single_search on the live driver: normal
return, TimeoutException, or WebDriverException. -/
inductive Outcome
  | ok
  | timeout
  | fault
deriving DecidableEq, Repr

/-- Observable events emitted by the worker loop: a call to single_search
for a phrase (1-based) at a given attempt index (the value of the retries
counter at the call), a progress callback, and the retry status message
written after a timeout. -/
inductive Ev
  | attempt (phrase attemptIdx : Nat)
  | progress (cur total : Nat)
  | retryStatus (phrase retry maxRetries : Nat)
deriving DecidableEq, Repr

/-- Mutable state threaded through the loop: the count of running-flag
reads performed so far (indexing the flag schedule), the
completed_searches counter, the emitted events in order, and the phrase at
which a WebDriverException aborted the run, if any. -/
structure LoopState where
  t : Nat
  completed : Nat
  events : List Ev
  faultedAt : Option Nat
deriving DecidableEq, Repr

/-- The inner retry loop for one phrase (TheCode.py lines 159-173):
while retries is below max_retries and the running flag holds, attempt the
search; success bumps completed_searches, reports progress and leaves the
loop; a timeout bumps retries and emits a retry status; a driver fault
leaves the loop with the boolean result true (the exception is re-raised).
fuel is an upper bound on the remaining iterations; every call below
passes fuel equal to maxRetries so that the guard on retries, not the
fuel, ends the loop. -/
def whileAttempts (out : Nat → Outcome) (flag : Nat → Bool) (i N maxRetries : Nat) :
    Nat → Nat → LoopState → LoopState × Bool
  | 0, _, st => (st, false)
  | fuel + 1, retries, st =>
    if retries < maxRetries then
      if flag st.t then
        match out retries with
        | .ok =>
          ({ t := st.t + 1, completed := st.completed + 1,
             events := st.events ++ [.attempt i retries, .progress i N],
             faultedAt := st.faultedAt }, false)
        | .timeout =>
          whileAttempts out flag i N maxRetries fuel (retries + 1)
            { t := st.t + 1, completed := st.completed,
              events := st.events ++ [.attempt i retries, .retryStatus i (retries + 1) maxRetries],
              faultedAt := st.faultedAt }
        | .fault =>
          ({ t := st.t + 1, completed := st.completed,
             events := st.events ++ [.attempt i retries],
             faultedAt := st.faultedAt }, true)
      else ({ t := st.t + 1, completed := st.completed, events := st.events,
              faultedAt := st.faultedAt }, false)
    else (st, false)

/-- The outer for loop over the phrases (TheCode.py lines 155-173):
for each remaining phrase, break if the running flag is false, otherwise
run the retry loop; a driver fault records the faulting phrase and aborts.
i is the 1-based index of the current phrase; the top-level call passes
the phrase count as both N and the remaining count. -/
def forPhrases (env : Nat → Nat → Outcome) (flag : Nat → Bool) (N maxRetries : Nat) :
    Nat → Nat → LoopState → LoopState
  | 0, _, st => st
  | rem + 1, i, st =>
    if flag st.t then
      let r := whileAttempts (env (i - 1)) flag i N maxRetries maxRetries 0
        { t := st.t + 1, completed := st.completed, events := st.events,
          faultedAt := st.faultedAt }
      if r.2 then
        { t := r.1.t, completed := r.1.completed, events := r.1.events, faultedAt := some i }
      else forPhrases env flag N maxRetries rem (i + 1) r.1
    else { t := st.t + 1, completed := st.completed, events := st.events,
           faultedAt := st.faultedAt }

/-- Result of one call to perform_search: the exception propagating out of
it if any, the counters and events of the run, whether a driver was
created and closed, the final Completed status, the running flag
afterwards, and the settings file afterwards. -/
structure PerformResult where
  raised : Option RunError
  completed : Nat
  total : Nat
  events : List Ev
  driverCreated : Bool
  driverClosed : Bool
  finalStatus : Option (Nat × Nat)
  is_running_after : Bool
  disk_after : DiskState

/-- perform_search (TheCode.py lines 133-189).  Validation failures raise
before the try block, so no finally actions happen on that path and the
running flag keeps the value start gave it.  Otherwise the driver is set
up (setupOk tells whether setup_driver succeeds), the loop runs, and the
finally block closes the driver when one was created (suppressing close
errors), emits the final Completed status, clears the running flag and
saves the config with a fresh last_auto_search.  maxRetries models the
max_retries entry of the controller config; cfg is that config object as
saved at the end; saveOk tells whether the Config.save write succeeds
(a failure is logged and swallowed). -/
def perform_search (isfile : String → Bool) (readLines : String → List String)
    (sf dp : String) (setupOk : Bool) (maxRetries : Nat)
    (env : Nat → Nat → Outcome) (flag : Nat → Bool)
    (cfg : JObj) (saveOk : Bool) (disk : DiskState) (now : String) : PerformResult :=
  match validatePhase isfile readLines sf dp with
  | .error e =>
    { raised := some e, completed := 0, total := 0, events := [],
      driverCreated := false, driverClosed := false, finalStatus := none,
      is_running_after := true, disk_after := disk }
  | .ok searches =>
    let N := searches.length
    if setupOk then
      let st := forPhrases env flag N maxRetries N 1
        { t := 0, completed := 0, events := [], faultedAt := none }
      { raised := match st.faultedAt with | some _ => some .sessionFault | none => none,
        completed := st.completed, total := N, events := st.events,
        driverCreated := true, driverClosed := true,
        finalStatus := some (st.completed, N), is_running_after := false,
        disk_after := Config.save (record_last_auto_search cfg now) saveOk disk }
    else
      { raised := some .setupFailed, completed := 0, total := N, events := [],
        driverCreated := false, driverClosed := false,
        finalStatus := some (0, N), is_running_after := false,
        disk_after := Config.save (record_last_auto_search cfg now) saveOk disk }

/-- The progress callback arguments extracted from an event list. -/
def progressOf : List Ev → List (Nat × Nat)
  | [] => []
  | .progress c tot :: rest => (c, tot) :: progressOf rest
  | _ :: rest => progressOf rest

/-- The single_search call sites extracted from an event list, as pairs of
phrase index and attempt index. -/
def attemptsOf : List Ev → List (Nat × Nat)
  | [] => []
  | .attempt p j :: rest => (p, j) :: attemptsOf rest
  | _ :: rest => attemptsOf rest

/-- The state at the start of a run. -/
def initState : LoopState := { t := 0, completed := 0, events := [], faultedAt := none }

/-- The retry loop for one phrase run from a fresh state with retries
starting at zero, as the for loop does for each phrase. -/
def phraseRun (out : Nat → Outcome) (i N maxRetries : Nat) : LoopState × Bool :=
  whileAttempts out (fun _ => true) i N maxRetries maxRetries 0 initState

/-- Phrase index an event refers to. -/
def evPhrase : Ev → Nat
  | .attempt p _ => p
  | .progress c _ => c
  | .retryStatus p _ _ => p

/-- Events of the retry loop for a phrase whose attempts all time out,
running from the given retries value for the given number of further
iterations. -/
def timeoutEvsFrom (i maxRetries : Nat) : Nat → Nat → List Ev
  | _, 0 => []
  | retries, fuel + 1 =>
    .attempt i retries :: .retryStatus i (retries + 1) maxRetries ::
      timeoutEvsFrom i maxRetries (retries + 1) fuel

/-- Events of a fully successful run over m phrases starting at 1-based
index i: one attempt and one progress report per phrase. -/
def okEvents (N : Nat) : Nat → Nat → List Ev
  | _, 0 => []
  | i, m + 1 => .attempt i 0 :: .progress i N :: okEvents N (i + 1) m

/-- Progress pairs (i, N), (i+1, N) and so on, for m phrases. -/
def progressList (N : Nat) : Nat → Nat → List (Nat × Nat)
  | _, 0 => []
  | i, m + 1 => (i, N) :: progressList N (i + 1) m

/-- Events of a run over m phrases starting at index i in which every
attempt times out: max_retries attempts and retry messages per phrase. -/
def timeoutRunEvents (maxRetries : Nat) : Nat → Nat → List Ev
  | _, 0 => []
  | i, m + 1 => timeoutEvsFrom i maxRetries 0 maxRetries ++ timeoutRunEvents maxRetries (i + 1) m

/-- Total completed count contributed by phrases i through i+m-1, each
run fresh by the retry loop. -/
def sumCompleted (env : Nat → Nat → Outcome) (N maxRetries : Nat) : Nat → Nat → Nat
  | _, 0 => 0
  | i, m + 1 => (phraseRun (env (i - 1)) i N maxRetries).1.completed +
      sumCompleted env N maxRetries (i + 1) m

/-- Concatenated events contributed by phrases i through i+m-1, each run
fresh by the retry loop. -/
def joinEvents (env : Nat → Nat → Outcome) (N maxRetries : Nat) : Nat → Nat → List Ev
  | _, 0 => []
  | i, m + 1 => (phraseRun (env (i - 1)) i N maxRetries).1.events ++
      joinEvents env N maxRetries (i + 1) m

/-! ## Theorems: settings store, scheduler, controller start -/

/-- Claim C7 counterexample: with no settings file, the first load
returns the default search_delay as the Python tuple (3, 7); json.dump
writes it as the array [3, 7], which parses back as a list, so the
configuration obtained after save and reload differs from the first load
at search_delay.  The round-trip identity the claim states fails in
exactly the no-settings-file case the claim highlights. -/
theorem claim_C7_counterexample :
    Config.load DiskState.missing ("search_delay") = some (.jTuple 3 7) ∧
    Config.load (Config.save (Config.load DiskState.missing) true DiskState.missing)
      ("search_delay") = some (.jList 3 7) ∧
    Config.load (Config.save (Config.load DiskState.missing) true DiskState.missing) ≠
      Config.load DiskState.missing := by
  refine ⟨rfl, rfl, ?_⟩
  intro h
  exact absurd (congrFun h ("search_delay")) (by decide)

/-- Claim C7 amended: save of load followed by load yields the
serialization image of the first load: every tuple value (the default
search_delay when no file overrides it) is replaced by the corresponding
list, and every other value is unchanged, so the round-trip reproduces
the first load exactly at every key whose value is not a tuple; a failed
save leaves the second load identical to the first. -/
theorem claim_C7_amended (d : DiskState) :
    Config.load (Config.save (Config.load d) true d) = toJson (Config.load d) ∧
    (∀ k, (∀ a b : Int, Config.load d k ≠ some (.jTuple a b)) →
      Config.load (Config.save (Config.load d) true d) k = Config.load d k) ∧
    Config.load (Config.save (Config.load d) false d) = Config.load d := by
  have h1 : Config.load (Config.save (Config.load d) true d) = toJson (Config.load d) := by
    funext k
    show mergeOver defaultConfig (toJson (Config.load d)) k = toJson (Config.load d) k
    unfold mergeOver toJson
    cases h : Config.load d k with
    | some v => rfl
    | none =>
      simp only [Option.map_none']
      cases d with
      | missing => simpa [Config.load] using h
      | corrupt => simpa [Config.load] using h
      | stored j =>
        simp only [Config.load, mergeOver] at h ⊢
        cases hj : j k with
        | some v => rw [hj] at h; exact absurd h (by simp)
        | none => rw [hj] at h; exact h
  refine ⟨h1, ?_, rfl⟩
  intro k hk
  rw [h1]
  show (Config.load d k).map jsonifyVal = Config.load d k
  cases h : Config.load d k with
  | none => rfl
  | some v =>
    cases v with
    | jTuple a b => exact absurd h (hk a b)
    | jNull => rfl
    | jBool b => rfl
    | jInt n => rfl
    | jStr s => rfl
    | jList a b => rfl

/-- Witness for the amended claim C7 at the missing-file disk state,
with the not-a-tuple hypothesis discharged at the page_load_timeout
key. -/
theorem claim_C7_amended_witness :
    Config.load (Config.save (Config.load DiskState.missing) true DiskState.missing) =
      toJson (Config.load DiskState.missing) ∧
    Config.load (Config.save (Config.load DiskState.missing) true DiskState.missing)
        ("page_load_timeout") = Config.load DiskState.missing ("page_load_timeout") ∧
    Config.load (Config.save (Config.load DiskState.missing) false DiskState.missing) =
      Config.load DiskState.missing := by
  have h := claim_C7_amended DiskState.missing
  refine ⟨h.1, h.2.1 ("page_load_timeout") ?_, h.2.2⟩
  intro a b hh
  exact JVal.noConfusion (Option.some.inj hh)

/-- Claim C6: the auto-run check launches a run exactly when auto-run is
enabled, both last-used paths are non-empty and exist on disk, and the run
is due, where due is true when no last-run timestamp exists or it fails to
parse, and otherwise compares the elapsed seconds with the configured
interval in hours times 3600.  The hypothesis records that the ISO parser
rejects the empty string, as datetime.fromisoformat does. -/
theorem claim_C6 (enabled : Bool) (sf dp : String) (isfile : String → Bool)
    (last : Option String) (fromiso : String → Option Int) (now interval : Int)
    (hempty : fromiso "" = none) :
    maybe_auto_run_launches enabled sf dp isfile last fromiso now interval = true ↔
      (enabled = true ∧ sf ≠ "" ∧ dp ≠ "" ∧ isfile sf = true ∧ isfile dp = true ∧
        dueAsSpecified last fromiso now interval) := by
  unfold maybe_auto_run_launches dueCheck dueAsSpecified
  cases enabled with
  | false => simp
  | true =>
    by_cases hsf : sf = "" <;> simp only [hsf] <;>
      [skip; by_cases hdp : dp = ""] <;> try simp_all
    cases hf1 : isfile sf <;> cases hf2 : isfile dp <;> simp_all
    cases last with
    | none => simp
    | some s =>
      by_cases hs : s = ""
      · subst hs
        simp [hempty]
      · simp only [hs, if_false]
        cases hp : fromiso s with
        | none => simp
        | some t => simp [decide_eq_true_eq]

/-- Witness for claim C6: with a parser that accepts only the stored
timestamp, a timestamp 25 hours old against a 24 hour interval makes the
characterization hold at a concrete input on which the launch decision is
true. -/
theorem claim_C6_witness :
    maybe_auto_run_launches true ("phrases.txt") ("driver.exe") (fun _ => true)
        (some ("2024-01-01T00:00:00"))
        (fun s => if s = "2024-01-01T00:00:00" then some (0 : Int) else none)
        90000 24 = true ↔
      (true = true ∧ ("phrases.txt" : String) ≠ "" ∧ ("driver.exe" : String) ≠ "" ∧
        (fun _ : String => true) ("phrases.txt") = true ∧
        (fun _ : String => true) ("driver.exe") = true ∧
        dueAsSpecified (some ("2024-01-01T00:00:00"))
          (fun s => if s = "2024-01-01T00:00:00" then some (0 : Int) else none) 90000 24) :=
  claim_C6 true ("phrases.txt") ("driver.exe") (fun _ => true)
    (some ("2024-01-01T00:00:00"))
    (fun s => if s = "2024-01-01T00:00:00" then some (0 : Int) else none) 90000 24 rfl

/-- Claim C8: calling start while a worker thread is alive is a no-op:
the state is returned unchanged and no second worker is spawned. -/
theorem claim_C8 (s : ControllerState) (h : s.search_thread = some true) :
    start_search_thread s = (s, false) := by
  unfold start_search_thread
  rw [h]

/-- Witness for claim C8 at a concrete in-progress state. -/
theorem claim_C8_witness :
    start_search_thread { is_running := true, search_thread := some true, progress := (2, 5) } =
      ({ is_running := true, search_thread := some true, progress := (2, 5) }, false) :=
  claim_C8 { is_running := true, search_thread := some true, progress := (2, 5) } rfl

/-- Claim C3 counterexample: with a missing phrase file, the call to
start_search_thread returns with no synchronous error; the NotFoundError
is raised only later, inside the background worker.  The claim as stated
requires the error synchronously, before start returns. -/
theorem claim_C3_counterexample :
    (start_search_thread_run { is_running := false, search_thread := none, progress := (0, 0) }
        (fun _ => false) (fun _ => []) ("phrases.txt") ("driver.exe")).syncError = none ∧
    (start_search_thread_run { is_running := false, search_thread := none, progress := (0, 0) }
        (fun _ => false) (fun _ => []) ("phrases.txt") ("driver.exe")).workerError =
      some (.notFound ("phrases.txt")) := by
  constructor <;> rfl

/-- Claim C3 amended: start performs no validation and never raises a
setup error synchronously; when the controller is not already running and
the phrase file does not exist, the NotFoundError for it is raised inside
the background worker after start has returned. -/
theorem claim_C3_amended (s : ControllerState) (isfile : String → Bool)
    (readLines : String → List String) (sf dp : String) :
    (start_search_thread_run s isfile readLines sf dp).syncError = none ∧
    (s.search_thread ≠ some true → isfile sf = false →
      (start_search_thread_run s isfile readLines sf dp).workerError =
        some (.notFound sf)) := by
  constructor
  · unfold start_search_thread_run
    cases hst : s.search_thread with
    | none => rfl
    | some b => cases b <;> simp [hst]
  · intro hrun hfile
    unfold start_search_thread_run
    cases hst : s.search_thread with
    | none => simp [validatePhase, hfile]
    | some b =>
      cases b with
      | false => simp [validatePhase, hfile]
      | true => exact absurd hst hrun

/-- Witness for the amended claim C3 at a concrete idle state and a file
system with no files. -/
theorem claim_C3_amended_witness :
    (start_search_thread_run { is_running := false, search_thread := none, progress := (0, 0) }
        (fun _ => false) (fun _ => ["bing tutorials"]) ("input.txt") ("msedgedriver.exe")).syncError = none ∧
    (start_search_thread_run { is_running := false, search_thread := none, progress := (0, 0) }
        (fun _ => false) (fun _ => ["bing tutorials"]) ("input.txt") ("msedgedriver.exe")).workerError =
      some (.notFound ("input.txt")) := by
  have h := claim_C3_amended { is_running := false, search_thread := none, progress := (0, 0) }
    (fun _ => false) (fun _ => ["bing tutorials"]) ("input.txt") ("msedgedriver.exe")
  exact ⟨h.1, h.2 (by simp) rfl⟩

/-- Claim C9 is wrong about the code: after an auto-triggered run stamps
last_auto_search on disk, the restore step persists the GUI copy of the
configuration, loaded before the run, with only headless_mode replaced.
The persisted file therefore loses the stamped timestamp: its
last_auto_search reverts to the stale pre-run value.  Evaluated here at
the concrete startup state in which the GUI loaded the defaults, the run
stamped a timestamp, and the restore then wrote null back over it. -/
theorem claim_C9_bug :
    diskGet (Config.save (record_last_auto_search
        (setKey defaultConfig ("headless_mode") (.jBool true)) ("2024-01-02T00:00:00"))
        true DiskState.missing) ("last_auto_search") =
      some (.jStr ("2024-01-02T00:00:00")) ∧
    diskGet (restore_headless_after_run defaultConfig false true
        (Config.save (record_last_auto_search
          (setKey defaultConfig ("headless_mode") (.jBool true)) ("2024-01-02T00:00:00"))
          true DiskState.missing)).2 ("last_auto_search") = some .jNull ∧
    diskGet (restore_headless_after_run defaultConfig false true
        (Config.save (record_last_auto_search
          (setKey defaultConfig ("headless_mode") (.jBool true)) ("2024-01-02T00:00:00"))
          true DiskState.missing)).2 ("headless_mode") = some (.jBool false) := by
  refine ⟨?_, ?_, ?_⟩ <;> rfl

/-! ## Theorems: the worker loop -/

/-- With max_retries at zero the retry loop guard fails immediately for
every phrase: the loop changes nothing but the count of flag reads. -/
theorem forPhrases_maxzero (env : Nat → Nat → Outcome) (flag : Nat → Bool) (N : Nat) :
    ∀ rem i st, (forPhrases env flag N 0 rem i st).completed = st.completed ∧
      (forPhrases env flag N 0 rem i st).events = st.events ∧
      (forPhrases env flag N 0 rem i st).faultedAt = st.faultedAt := by
  intro rem
  induction rem with
  | zero => intro i st; exact ⟨rfl, rfl, rfl⟩
  | succ rem ih =>
    intro i st
    simp only [forPhrases]
    cases hf : flag st.t with
    | false => simp
    | true =>
      simp only [if_true]
      exact ih (i + 1) { st with t := st.t + 1 }

/-- Claim C10: when the configured max_retries is zero, the attempt loop
body never runs: no search is attempted, no progress is reported, no error
is raised, and the run ends normally with final status Completed 0/N. -/
theorem claim_C10 (isfile : String → Bool) (readLines : String → List String)
    (sf dp : String) (env : Nat → Nat → Outcome) (flag : Nat → Bool)
    (cfg : JObj) (saveOk : Bool) (disk : DiskState) (now : String)
    (searches : List String)
    (hv : validatePhase isfile readLines sf dp = .ok searches) :
    (perform_search isfile readLines sf dp true 0 env flag cfg saveOk disk now).events = [] ∧
    (perform_search isfile readLines sf dp true 0 env flag cfg saveOk disk now).completed = 0 ∧
    (perform_search isfile readLines sf dp true 0 env flag cfg saveOk disk now).raised = none ∧
    (perform_search isfile readLines sf dp true 0 env flag cfg saveOk disk now).finalStatus =
      some (0, searches.length) := by
  have h := forPhrases_maxzero env flag searches.length searches.length 1
    { t := 0, completed := 0, events := [], faultedAt := none }
  simp only [perform_search, hv]
  refine ⟨by simp [h.2.1], by simp [h.1], by simp [h.2.2], by simp [h.1]⟩

/-- Witness for claim C10 on a concrete two-phrase file. -/
theorem claim_C10_witness :
    (perform_search (fun _ => true) (fun _ => ["golang tutorials", "rust ownership"])
        ("in.txt") ("d.exe") true 0 (fun _ _ => .ok) (fun _ => true)
        defaultConfig true DiskState.missing ("T1")).events = [] ∧
    (perform_search (fun _ => true) (fun _ => ["golang tutorials", "rust ownership"])
        ("in.txt") ("d.exe") true 0 (fun _ _ => .ok) (fun _ => true)
        defaultConfig true DiskState.missing ("T1")).completed = 0 ∧
    (perform_search (fun _ => true) (fun _ => ["golang tutorials", "rust ownership"])
        ("in.txt") ("d.exe") true 0 (fun _ _ => .ok) (fun _ => true)
        defaultConfig true DiskState.missing ("T1")).raised = none ∧
    (perform_search (fun _ => true) (fun _ => ["golang tutorials", "rust ownership"])
        ("in.txt") ("d.exe") true 0 (fun _ _ => .ok) (fun _ => true)
        defaultConfig true DiskState.missing ("T1")).finalStatus =
      some (0, (["golang tutorials", "rust ownership"] : List String).length) :=
  claim_C10 (fun _ => true) (fun _ => ["golang tutorials", "rust ownership"])
    ("in.txt") ("d.exe") (fun _ _ => .ok) (fun _ => true)
    defaultConfig true DiskState.missing ("T1") ["golang tutorials", "rust ownership"] rfl

/-- Claim C4: whenever the worker gets past validation, all the finally
actions happen on every exit path of the loop, normal, cancelled through
the flag schedule, or aborted by a driver fault: a created driver is
closed, the final Completed status carries the completed count over the
phrase total, the running flag ends false, and the timestamped config is
written to the settings store when the write succeeds, while a failed
write leaves the store unchanged and is not raised. -/
theorem claim_C4 (isfile : String → Bool) (readLines : String → List String)
    (sf dp : String) (setupOk : Bool) (maxRetries : Nat)
    (env : Nat → Nat → Outcome) (flag : Nat → Bool)
    (cfg : JObj) (saveOk : Bool) (disk : DiskState) (now : String)
    (searches : List String)
    (hv : validatePhase isfile readLines sf dp = .ok searches)
    (hs : setupOk = true) :
    ((perform_search isfile readLines sf dp setupOk maxRetries env flag cfg saveOk disk now).driverCreated = true →
      (perform_search isfile readLines sf dp setupOk maxRetries env flag cfg saveOk disk now).driverClosed = true) ∧
    (perform_search isfile readLines sf dp setupOk maxRetries env flag cfg saveOk disk now).finalStatus =
      some ((perform_search isfile readLines sf dp setupOk maxRetries env flag cfg saveOk disk now).completed,
        searches.length) ∧
    (perform_search isfile readLines sf dp setupOk maxRetries env flag cfg saveOk disk now).is_running_after = false ∧
    (saveOk = true →
      (perform_search isfile readLines sf dp setupOk maxRetries env flag cfg saveOk disk now).disk_after =
        .stored (toJson (record_last_auto_search cfg now))) ∧
    (saveOk = false →
      (perform_search isfile readLines sf dp setupOk maxRetries env flag cfg saveOk disk now).disk_after = disk) := by
  subst hs
  simp only [perform_search, hv]
  refine ⟨fun _ => by simp, by simp, by simp, ?_, ?_⟩ <;>
    intro hsv <;> subst hsv <;> simp [Config.save]

/-- Witness for claim C4 on a concrete run whose only phrase faults. -/
theorem claim_C4_witness :
    ((perform_search (fun _ => true) (fun _ => ["alpha"]) ("s.txt") ("d.exe")
        true 3 (fun _ _ => .fault) (fun _ => true) defaultConfig true DiskState.missing
        ("T2")).driverCreated = true →
      (perform_search (fun _ => true) (fun _ => ["alpha"]) ("s.txt") ("d.exe")
        true 3 (fun _ _ => .fault) (fun _ => true) defaultConfig true DiskState.missing
        ("T2")).driverClosed = true) ∧
    (perform_search (fun _ => true) (fun _ => ["alpha"]) ("s.txt") ("d.exe")
        true 3 (fun _ _ => .fault) (fun _ => true) defaultConfig true DiskState.missing
        ("T2")).finalStatus =
      some ((perform_search (fun _ => true) (fun _ => ["alpha"]) ("s.txt") ("d.exe")
        true 3 (fun _ _ => .fault) (fun _ => true) defaultConfig true DiskState.missing
        ("T2")).completed, (["alpha"] : List String).length) ∧
    (perform_search (fun _ => true) (fun _ => ["alpha"]) ("s.txt") ("d.exe")
        true 3 (fun _ _ => .fault) (fun _ => true) defaultConfig true DiskState.missing
        ("T2")).is_running_after = false ∧
    (true = true →
      (perform_search (fun _ => true) (fun _ => ["alpha"]) ("s.txt") ("d.exe")
        true 3 (fun _ _ => .fault) (fun _ => true) defaultConfig true DiskState.missing
        ("T2")).disk_after = .stored (toJson (record_last_auto_search defaultConfig ("T2")))) ∧
    (true = false →
      (perform_search (fun _ => true) (fun _ => ["alpha"]) ("s.txt") ("d.exe")
        true 3 (fun _ _ => .fault) (fun _ => true) defaultConfig true DiskState.missing
        ("T2")).disk_after = DiskState.missing) :=
  claim_C4 (fun _ => true) (fun _ => ["alpha"]) ("s.txt") ("d.exe") true 3
    (fun _ _ => .fault) (fun _ => true) defaultConfig true DiskState.missing ("T2")
    ["alpha"] rfl rfl

/-- Claim C1 counterexample: a one-phrase run whose phrase times out on
all three allowed attempts is processed to the end without aborting, yet
the progress counter is never advanced: the claim says progress is
advanced after each phrase regardless and that the run ends at (1, 1). -/
theorem claim_C1_counterexample :
    (let r := perform_search (fun _ => true) (fun _ => ["alpha"]) ("s.txt") ("d.exe")
        true 3 (fun _ _ => .timeout) (fun _ => true) defaultConfig true DiskState.missing ("T3")
     r.raised = none ∧ progressOf r.events = [] ∧
       (progressOf r.events).getLast? ≠ some (1, 1)) := by
  decide

/-- Claim C2 counterexample: with max_retries three, a phrase that always
times out is attempted exactly three times, at attempt indices zero, one
and two, not one plus three times as the claim states. -/
theorem claim_C2_counterexample :
    (let r := perform_search (fun _ => true) (fun _ => ["alpha"]) ("s.txt") ("d.exe")
        true 3 (fun _ _ => .timeout) (fun _ => true) defaultConfig true DiskState.missing ("T4")
     attemptsOf r.events = [(1, 0), (1, 1), (1, 2)] ∧
       (attemptsOf r.events).length ≠ 1 + 3) := by
  decide

/-- Compositionality of the retry loop under an always-true flag: running
from any state equals running from the initial state with the deltas added
on top; the fault result and the faultedAt field are untouched. -/
theorem whileAttempts_frame (out : Nat → Outcome) (i N maxRetries : Nat) :
    ∀ fuel retries st,
      whileAttempts out (fun _ => true) i N maxRetries fuel retries st =
        ({ t := st.t + (whileAttempts out (fun _ => true) i N maxRetries fuel retries initState).1.t,
           completed := st.completed +
             (whileAttempts out (fun _ => true) i N maxRetries fuel retries initState).1.completed,
           events := st.events ++
             (whileAttempts out (fun _ => true) i N maxRetries fuel retries initState).1.events,
           faultedAt := st.faultedAt },
         (whileAttempts out (fun _ => true) i N maxRetries fuel retries initState).2) := by
  intro fuel
  induction fuel with
  | zero =>
    intro retries st
    simp [whileAttempts, initState]
  | succ fuel ih =>
    intro retries st
    by_cases hr : retries < maxRetries
    · cases hout : out retries with
      | ok => simp [whileAttempts, hr, hout, initState]
      | fault => simp [whileAttempts, hr, hout, initState]
      | timeout =>
        have h1 := ih (retries + 1)
          ⟨st.t + 1, st.completed,
            st.events ++ [.attempt i retries, .retryStatus i (retries + 1) maxRetries],
            st.faultedAt⟩
        have h2 := ih (retries + 1)
          ⟨1, 0, [.attempt i retries, .retryStatus i (retries + 1) maxRetries], none⟩
        simp only [whileAttempts, hr, if_true, hout, initState] at h1 h2 ⊢
        simp only [List.nil_append] at h2 ⊢
        rw [h1, h2]
        simp [Nat.add_assoc, List.append_assoc]
    · simp [whileAttempts, hr, initState]

/-- A retry loop run that ends in a fault never incremented
completed_searches. -/
theorem whileAttempts_fault_completed (out : Nat → Outcome) (flag : Nat → Bool)
    (i N maxRetries : Nat) :
    ∀ fuel retries st, (whileAttempts out flag i N maxRetries fuel retries st).2 = true →
      (whileAttempts out flag i N maxRetries fuel retries st).1.completed = st.completed := by
  intro fuel
  induction fuel with
  | zero => intro retries st h; exact absurd h (by simp [whileAttempts])
  | succ fuel ih =>
    intro retries st h
    by_cases hr : retries < maxRetries
    · by_cases hf : flag st.t = true
      · cases hout : out retries with
        | ok => simp [whileAttempts, hr, hf, hout] at h
        | fault => simp [whileAttempts, hr, hf, hout]
        | timeout =>
          simp only [whileAttempts, hr, if_true, hf, hout] at h ⊢
          exact ih (retries + 1) _ h
      · simp [whileAttempts, hr, hf] at h
    · simp [whileAttempts, hr] at h

/-- A phrase whose first attempt succeeds, under a positive retry budget:
one attempt, one progress report, one completed search, no fault. -/
theorem phraseRun_ok (out : Nat → Outcome) (i N maxRetries : Nat)
    (hmax : 1 ≤ maxRetries) (hout : out 0 = .ok) :
    phraseRun out i N maxRetries =
      (⟨1, 1, [.attempt i 0, .progress i N], none⟩, false) := by
  obtain ⟨m, rfl⟩ : ∃ m, maxRetries = m + 1 := ⟨maxRetries - 1, by omega⟩
  simp [phraseRun, whileAttempts, hout, initState]

/-- Closed form of the retry loop when every attempt times out and the
flag stays true: it performs exactly the remaining allowed iterations,
emitting one attempt and one retry message per iteration, completes
nothing and does not fault. -/
theorem whileAttempts_timeout (out : Nat → Outcome) (i N maxRetries : Nat)
    (hout : ∀ j, out j = .timeout) :
    ∀ fuel retries st, retries + fuel = maxRetries →
      whileAttempts out (fun _ => true) i N maxRetries fuel retries st =
        ({ t := st.t + fuel, completed := st.completed,
           events := st.events ++ timeoutEvsFrom i maxRetries retries fuel,
           faultedAt := st.faultedAt }, false) := by
  intro fuel
  induction fuel with
  | zero =>
    intro retries st hsum
    simp [whileAttempts, timeoutEvsFrom]
  | succ fuel ih =>
    intro retries st hsum
    have hr : retries < maxRetries := by omega
    have h1 := ih (retries + 1)
      ⟨st.t + 1, st.completed,
        st.events ++ [.attempt i retries, .retryStatus i (retries + 1) maxRetries],
        st.faultedAt⟩ (by omega)
    simp only [whileAttempts, hr, if_true, hout retries] at h1 ⊢
    rw [h1]
    simp only [timeoutEvsFrom, List.append_assoc, List.cons_append, List.nil_append,
      Prod.mk.injEq, LoopState.mk.injEq, and_true, true_and]
    omega

/-- A phrase all of whose attempts time out is skipped: max_retries
attempts, no completed search, no fault. -/
theorem phraseRun_timeout (out : Nat → Outcome) (i N maxRetries : Nat)
    (hout : ∀ j, out j = .timeout) :
    phraseRun out i N maxRetries =
      (⟨maxRetries, 0, timeoutEvsFrom i maxRetries 0 maxRetries, none⟩, false) := by
  have h := whileAttempts_timeout out i N maxRetries hout maxRetries 0 initState (by omega)
  simpa [initState] using h

/-- Composition of the phrase loop over a segment of phrases none of
which faults, under an always-true flag: counters and events accumulate
phrase by phrase and no fault is recorded. -/
theorem forPhrases_nofault (env : Nat → Nat → Outcome) (N maxRetries : Nat) :
    ∀ rem i st, 1 ≤ i →
      (∀ j, j < rem → (phraseRun (env (i - 1 + j)) (i + j) N maxRetries).2 = false) →
      (forPhrases env (fun _ => true) N maxRetries rem i st).completed =
          st.completed + sumCompleted env N maxRetries i rem ∧
      (forPhrases env (fun _ => true) N maxRetries rem i st).events =
          st.events ++ joinEvents env N maxRetries i rem ∧
      (forPhrases env (fun _ => true) N maxRetries rem i st).faultedAt = st.faultedAt := by
  intro rem
  induction rem with
  | zero =>
    intro i st hi h
    simp [forPhrases, sumCompleted, joinEvents]
  | succ rem ih =>
    intro i st hi h
    have h0 := h 0 (by omega)
    simp only [Nat.add_zero] at h0
    have hp : whileAttempts (env (i - 1)) (fun _ => true) i N maxRetries maxRetries 0 initState =
        phraseRun (env (i - 1)) i N maxRetries := rfl
    have hfr := whileAttempts_frame (env (i - 1)) i N maxRetries maxRetries 0
      ⟨st.t + 1, st.completed, st.events, st.faultedAt⟩
    rw [hp] at hfr
    have hshift : ∀ j, j < rem →
        (phraseRun (env (i + 1 - 1 + j)) (i + 1 + j) N maxRetries).2 = false := by
      intro j hj
      have hh := h (j + 1) (by omega)
      have e1 : i - 1 + (j + 1) = i + 1 - 1 + j := by omega
      have e2 : i + (j + 1) = i + 1 + j := by omega
      rw [e1, e2] at hh
      exact hh
    obtain ⟨hc, he, hf⟩ := ih (i + 1)
      ⟨st.t + 1 + (phraseRun (env (i - 1)) i N maxRetries).1.t,
        st.completed + (phraseRun (env (i - 1)) i N maxRetries).1.completed,
        st.events ++ (phraseRun (env (i - 1)) i N maxRetries).1.events,
        st.faultedAt⟩ (by omega) hshift
    simp only [forPhrases, if_true, hfr, h0, Bool.false_eq_true, if_false]
    refine ⟨?_, ?_, ?_⟩
    · rw [hc]
      simp [sumCompleted, Nat.add_assoc]
    · rw [he]
      simp [joinEvents, List.append_assoc]
    · rw [hf]

/-- Composition of the phrase loop up to the first faulting phrase, under
an always-true flag: phrases before the fault accumulate their counters
and events, the faulting phrase contributes its partial events and no
completed search, its index is recorded as the fault position, and the
loop stops there. -/
theorem forPhrases_fault (env : Nat → Nat → Outcome) (N maxRetries : Nat) :
    ∀ m rem i st, 1 ≤ i → m < rem →
      (∀ j, j < m → (phraseRun (env (i - 1 + j)) (i + j) N maxRetries).2 = false) →
      (phraseRun (env (i - 1 + m)) (i + m) N maxRetries).2 = true →
      (forPhrases env (fun _ => true) N maxRetries rem i st).completed =
          st.completed + sumCompleted env N maxRetries i m ∧
      (forPhrases env (fun _ => true) N maxRetries rem i st).events =
          st.events ++ joinEvents env N maxRetries i m ++
            (phraseRun (env (i - 1 + m)) (i + m) N maxRetries).1.events ∧
      (forPhrases env (fun _ => true) N maxRetries rem i st).faultedAt = some (i + m) := by
  intro m
  induction m with
  | zero =>
    intro rem i st hi hm h hfault
    obtain ⟨rem1, rfl⟩ : ∃ r1, rem = r1 + 1 := ⟨rem - 1, by omega⟩
    simp only [Nat.add_zero] at hfault ⊢
    have hp : whileAttempts (env (i - 1)) (fun _ => true) i N maxRetries maxRetries 0 initState =
        phraseRun (env (i - 1)) i N maxRetries := rfl
    have hfr := whileAttempts_frame (env (i - 1)) i N maxRetries maxRetries 0
      ⟨st.t + 1, st.completed, st.events, st.faultedAt⟩
    rw [hp] at hfr
    have hc0 : (phraseRun (env (i - 1)) i N maxRetries).1.completed = 0 := by
      have h2 := whileAttempts_fault_completed (env (i - 1)) (fun _ => true) i N maxRetries
        maxRetries 0 initState
      rw [hp] at h2
      simpa [initState] using h2 hfault
    simp only [forPhrases, if_true, hfr, hfault]
    simp [sumCompleted, hc0, joinEvents, List.append_assoc]
  | succ m ihm =>
    intro rem i st hi hm h hfault
    obtain ⟨rem1, rfl⟩ : ∃ r1, rem = r1 + 1 := ⟨rem - 1, by omega⟩
    have h0 := h 0 (by omega)
    simp only [Nat.add_zero] at h0
    have hp : whileAttempts (env (i - 1)) (fun _ => true) i N maxRetries maxRetries 0 initState =
        phraseRun (env (i - 1)) i N maxRetries := rfl
    have hfr := whileAttempts_frame (env (i - 1)) i N maxRetries maxRetries 0
      ⟨st.t + 1, st.completed, st.events, st.faultedAt⟩
    rw [hp] at hfr
    have e1 : i - 1 + (m + 1) = i + 1 - 1 + m := by omega
    have e2 : i + (m + 1) = i + 1 + m := by omega
    have hshift : ∀ j, j < m →
        (phraseRun (env (i + 1 - 1 + j)) (i + 1 + j) N maxRetries).2 = false := by
      intro j hj
      have hh := h (j + 1) (by omega)
      have f1 : i - 1 + (j + 1) = i + 1 - 1 + j := by omega
      have f2 : i + (j + 1) = i + 1 + j := by omega
      rw [f1, f2] at hh
      exact hh
    have hfs : (phraseRun (env (i + 1 - 1 + m)) (i + 1 + m) N maxRetries).2 = true := by
      rw [e1, e2] at hfault
      exact hfault
    obtain ⟨hc, he, hf⟩ := ihm rem1 (i + 1)
      ⟨st.t + 1 + (phraseRun (env (i - 1)) i N maxRetries).1.t,
        st.completed + (phraseRun (env (i - 1)) i N maxRetries).1.completed,
        st.events ++ (phraseRun (env (i - 1)) i N maxRetries).1.events,
        st.faultedAt⟩ (by omega) (by omega) hshift hfs
    simp only [forPhrases, if_true, hfr, h0, Bool.false_eq_true, if_false]
    refine ⟨?_, ?_, ?_⟩
    · rw [hc]
      simp [sumCompleted, Nat.add_assoc]
    · rw [he, e1, e2]
      simp [joinEvents, List.append_assoc]
    · rw [hf]
      simp only [Option.some.injEq]
      omega

/-- Every event the retry loop appends concerns its own phrase. -/
theorem whileAttempts_events_phrase (out : Nat → Outcome) (flag : Nat → Bool)
    (i N maxRetries : Nat) :
    ∀ fuel retries st e,
      e ∈ (whileAttempts out flag i N maxRetries fuel retries st).1.events →
      e ∈ st.events ∨ evPhrase e = i := by
  intro fuel
  induction fuel with
  | zero =>
    intro retries st e he
    simp only [whileAttempts] at he
    exact Or.inl he
  | succ fuel ih =>
    intro retries st e he
    by_cases hr : retries < maxRetries
    · by_cases hf : flag st.t = true
      · cases hout : out retries with
        | ok =>
          simp only [whileAttempts, hr, if_true, hf, hout, List.mem_append,
            List.mem_cons, List.not_mem_nil, or_false] at he
          rcases he with he | he | he
          · exact Or.inl he
          · subst he; exact Or.inr rfl
          · subst he; exact Or.inr rfl
        | timeout =>
          simp only [whileAttempts, hr, if_true, hf, hout] at he
          rcases ih (retries + 1) _ e he with hin | hph
          · simp only [List.mem_append, List.mem_cons, List.not_mem_nil, or_false] at hin
            rcases hin with hin | hin | hin
            · exact Or.inl hin
            · subst hin; exact Or.inr rfl
            · subst hin; exact Or.inr rfl
          · exact Or.inr hph
        | fault =>
          simp only [whileAttempts, hr, if_true, hf, hout, List.mem_append,
            List.mem_cons, List.not_mem_nil, or_false] at he
          rcases he with he | he
          · exact Or.inl he
          · subst he; exact Or.inr rfl
      · simp only [whileAttempts, hr, if_true, hf, Bool.false_eq_true, if_false] at he
        exact Or.inl he
    · simp only [whileAttempts, hr, if_false] at he
      exact Or.inl he

/-- Events of a no-fault segment of phrases starting at index i concern
phrases between i and i plus the segment length. -/
theorem joinEvents_phrase (env : Nat → Nat → Outcome) (N maxRetries : Nat) :
    ∀ m i e, e ∈ joinEvents env N maxRetries i m →
      i ≤ evPhrase e ∧ evPhrase e < i + m := by
  intro m
  induction m with
  | zero =>
    intro i e he
    simp [joinEvents] at he
  | succ m ih =>
    intro i e he
    simp only [joinEvents, List.mem_append] at he
    rcases he with he | he
    · have hph := whileAttempts_events_phrase (env (i - 1)) (fun _ => true) i N maxRetries
        maxRetries 0 initState e he
      rcases hph with hin | hph
      · simp [initState] at hin
      · omega
    · have := ih (i + 1) e he
      omega

/-- Over an environment in which every attempt succeeds, each phrase of a
segment contributes exactly one completed search. -/
theorem sumCompleted_ok (env : Nat → Nat → Outcome) (N maxRetries : Nat)
    (hmax : 1 ≤ maxRetries) (henv : ∀ p a, env p a = .ok) :
    ∀ m i, sumCompleted env N maxRetries i m = m := by
  intro m
  induction m with
  | zero => intro i; rfl
  | succ m ih =>
    intro i
    rw [sumCompleted, phraseRun_ok (env (i - 1)) i N maxRetries hmax (henv (i - 1) 0), ih (i + 1)]
    show 1 + m = m + 1
    omega

/-- Over an environment in which every attempt succeeds, the events of a
segment are one attempt and one progress report per phrase. -/
theorem joinEvents_ok (env : Nat → Nat → Outcome) (N maxRetries : Nat)
    (hmax : 1 ≤ maxRetries) (henv : ∀ p a, env p a = .ok) :
    ∀ m i, joinEvents env N maxRetries i m = okEvents N i m := by
  intro m
  induction m with
  | zero => intro i; rfl
  | succ m ih =>
    intro i
    rw [joinEvents, phraseRun_ok (env (i - 1)) i N maxRetries hmax (henv (i - 1) 0), ih (i + 1)]
    rfl

/-- Over an environment in which every attempt times out, no phrase
contributes a completed search. -/
theorem sumCompleted_timeout (env : Nat → Nat → Outcome) (N maxRetries : Nat)
    (henv : ∀ p a, env p a = .timeout) :
    ∀ m i, sumCompleted env N maxRetries i m = 0 := by
  intro m
  induction m with
  | zero => intro i; rfl
  | succ m ih =>
    intro i
    rw [sumCompleted, phraseRun_timeout (env (i - 1)) i N maxRetries (henv (i - 1)), ih (i + 1)]

/-- Over an environment in which every attempt times out, the events of a
segment are the per-phrase timeout patterns in order. -/
theorem joinEvents_timeout (env : Nat → Nat → Outcome) (N maxRetries : Nat)
    (henv : ∀ p a, env p a = .timeout) :
    ∀ m i, joinEvents env N maxRetries i m = timeoutRunEvents maxRetries i m := by
  intro m
  induction m with
  | zero => intro i; rfl
  | succ m ih =>
    intro i
    rw [joinEvents, phraseRun_timeout (env (i - 1)) i N maxRetries (henv (i - 1)), ih (i + 1)]
    rfl

/-- Extracting the progress reports from a fully successful event trace. -/
theorem progressOf_okEvents (N : Nat) :
    ∀ m i, progressOf (okEvents N i m) = progressList N i m := by
  intro m
  induction m with
  | zero => intro i; rfl
  | succ m ih =>
    intro i
    simp only [okEvents, progressOf, progressList, ih (i + 1)]

/-- A successful m-phrase trace reports progress m times. -/
theorem progressList_length (N : Nat) :
    ∀ m i, (progressList N i m).length = m := by
  intro m
  induction m with
  | zero => intro i; rfl
  | succ m ih =>
    intro i
    simp only [progressList, List.length_cons, ih (i + 1)]

/-- The last progress report of a successful trace over at least one
phrase. -/
theorem progressList_getLast (N : Nat) :
    ∀ m i, (progressList N i (m + 1)).getLast? = some (i + m, N) := by
  intro m
  induction m with
  | zero => intro i; rfl
  | succ m ih =>
    intro i
    have := ih (i + 1)
    simp only [progressList] at this ⊢
    rw [List.getLast?_cons_cons]
    rw [show progressList N (i + 1 + 1) m = progressList N (i + 2) m from rfl] at this
    rw [this]
    refine congrArg some ?_
    refine Prod.ext ?_ rfl
    show i + 1 + m = i + (m + 1)
    omega

/-- Progress reports of a successful trace are strictly increasing in the
current-phrase component. -/
theorem progressList_chain (N : Nat) :
    ∀ m i, List.Chain' (fun a b : Nat × Nat => a.1 < b.1) (progressList N i m) := by
  intro m
  induction m with
  | zero => intro i; simp [progressList]
  | succ m ih =>
    intro i
    rw [progressList, List.chain'_cons']
    refine ⟨?_, ih (i + 1)⟩
    intro b hb
    cases m with
    | zero => simp [progressList] at hb
    | succ m2 =>
      simp only [progressList, List.head?_cons, Option.mem_def, Option.some.injEq] at hb
      subst hb
      omega

/-- attemptsOf distributes over concatenation. -/
theorem attemptsOf_append : ∀ xs ys : List Ev,
    attemptsOf (xs ++ ys) = attemptsOf xs ++ attemptsOf ys := by
  intro xs
  induction xs with
  | nil => intro ys; rfl
  | cons x rest ih =>
    intro ys
    cases x <;> simp [attemptsOf, ih]

/-- A phrase whose attempts all time out performs one attempt per allowed
iteration. -/
theorem attemptsOf_timeoutEvsFrom (i maxRetries : Nat) :
    ∀ fuel retries, (attemptsOf (timeoutEvsFrom i maxRetries retries fuel)).length = fuel := by
  intro fuel
  induction fuel with
  | zero => intro retries; rfl
  | succ fuel ih =>
    intro retries
    simp only [timeoutEvsFrom, attemptsOf, List.length_cons, ih (retries + 1)]

/-- An all-timeout run over m phrases performs max_retries attempts per
phrase. -/
theorem attemptsOf_timeoutRunEvents (maxRetries : Nat) :
    ∀ m i, (attemptsOf (timeoutRunEvents maxRetries i m)).length = m * maxRetries := by
  intro m
  induction m with
  | zero => intro i; simp [timeoutRunEvents, attemptsOf]
  | succ m ih =>
    intro i
    simp only [timeoutRunEvents, attemptsOf_append, List.length_append,
      attemptsOf_timeoutEvsFrom, ih (i + 1)]
    ring

/-- Claim C1 amended: the progress counter is advanced only after a
successful phrase, never after exhausted retries; a fully successful run
over N phrases reports progress exactly N times, the pairs (1, N) through
(N, N) in order, strictly increasing in the first component, ending at
(N, N). -/
theorem claim_C1_amended (isfile : String → Bool) (readLines : String → List String)
    (sf dp : String) (maxRetries : Nat) (env : Nat → Nat → Outcome)
    (cfg : JObj) (saveOk : Bool) (disk : DiskState) (now : String)
    (searches : List String)
    (hv : validatePhase isfile readLines sf dp = .ok searches)
    (hmax : 1 ≤ maxRetries) (henv : ∀ p a, env p a = .ok) :
    (perform_search isfile readLines sf dp true maxRetries env (fun _ => true)
        cfg saveOk disk now).completed = searches.length ∧
    (perform_search isfile readLines sf dp true maxRetries env (fun _ => true)
        cfg saveOk disk now).events = okEvents searches.length 1 searches.length ∧
    (perform_search isfile readLines sf dp true maxRetries env (fun _ => true)
        cfg saveOk disk now).raised = none ∧
    (perform_search isfile readLines sf dp true maxRetries env (fun _ => true)
        cfg saveOk disk now).finalStatus = some (searches.length, searches.length) ∧
    progressOf ((perform_search isfile readLines sf dp true maxRetries env (fun _ => true)
        cfg saveOk disk now).events) = progressList searches.length 1 searches.length ∧
    (progressOf ((perform_search isfile readLines sf dp true maxRetries env (fun _ => true)
        cfg saveOk disk now).events)).length = searches.length ∧
    List.Chain' (fun a b : Nat × Nat => a.1 < b.1)
      (progressOf ((perform_search isfile readLines sf dp true maxRetries env (fun _ => true)
        cfg saveOk disk now).events)) ∧
    (1 ≤ searches.length →
      (progressOf ((perform_search isfile readLines sf dp true maxRetries env (fun _ => true)
        cfg saveOk disk now).events)).getLast? =
          some (searches.length, searches.length)) := by
  have hnf : ∀ j, j < searches.length →
      (phraseRun (env (1 - 1 + j)) (1 + j) searches.length maxRetries).2 = false := by
    intro j hj
    rw [phraseRun_ok (env (1 - 1 + j)) (1 + j) searches.length maxRetries hmax
      (henv (1 - 1 + j) 0)]
  obtain ⟨hc, he, hf⟩ := forPhrases_nofault env searches.length maxRetries searches.length 1
    ⟨0, 0, [], none⟩ (by omega) hnf
  rw [sumCompleted_ok env searches.length maxRetries hmax henv] at hc
  rw [joinEvents_ok env searches.length maxRetries hmax henv] at he
  have hC : (perform_search isfile readLines sf dp true maxRetries env (fun _ => true)
      cfg saveOk disk now).completed = searches.length := by
    simp [perform_search, hv, hc]
  have hE : (perform_search isfile readLines sf dp true maxRetries env (fun _ => true)
      cfg saveOk disk now).events = okEvents searches.length 1 searches.length := by
    simp [perform_search, hv, he]
  have hR : (perform_search isfile readLines sf dp true maxRetries env (fun _ => true)
      cfg saveOk disk now).raised = none := by
    simp [perform_search, hv, hf]
  have hFS : (perform_search isfile readLines sf dp true maxRetries env (fun _ => true)
      cfg saveOk disk now).finalStatus = some (searches.length, searches.length) := by
    simp [perform_search, hv, hc]
  refine ⟨hC, hE, hR, hFS, ?_, ?_, ?_, ?_⟩
  · rw [hE, progressOf_okEvents]
  · rw [hE, progressOf_okEvents, progressList_length]
  · rw [hE, progressOf_okEvents]
    exact progressList_chain searches.length searches.length 1
  · intro hN
    obtain ⟨n, hn⟩ : ∃ n, searches.length = n + 1 := ⟨searches.length - 1, by omega⟩
    rw [hE, progressOf_okEvents, hn, progressList_getLast]
    refine congrArg some (Prod.ext ?_ rfl)
    show 1 + n = n + 1
    omega

/-- Witness for the amended claim C1 on the concrete two-phrase scenario
of the specification, with max_retries one and every attempt
succeeding. -/
theorem claim_C1_amended_witness :
    (perform_search (fun _ => true) (fun _ => ["golang tutorials", "rust ownership"])
        ("in.txt") ("d.exe") true 1 (fun _ _ => .ok) (fun _ => true)
        defaultConfig true DiskState.missing ("T5")).completed =
      (["golang tutorials", "rust ownership"] : List String).length ∧
    (perform_search (fun _ => true) (fun _ => ["golang tutorials", "rust ownership"])
        ("in.txt") ("d.exe") true 1 (fun _ _ => .ok) (fun _ => true)
        defaultConfig true DiskState.missing ("T5")).events =
      okEvents (["golang tutorials", "rust ownership"] : List String).length 1
        (["golang tutorials", "rust ownership"] : List String).length ∧
    progressOf ((perform_search (fun _ => true) (fun _ => ["golang tutorials", "rust ownership"])
        ("in.txt") ("d.exe") true 1 (fun _ _ => .ok) (fun _ => true)
        defaultConfig true DiskState.missing ("T5")).events) =
      progressList (["golang tutorials", "rust ownership"] : List String).length 1
        (["golang tutorials", "rust ownership"] : List String).length ∧
    (progressOf ((perform_search (fun _ => true) (fun _ => ["golang tutorials", "rust ownership"])
        ("in.txt") ("d.exe") true 1 (fun _ _ => .ok) (fun _ => true)
        defaultConfig true DiskState.missing ("T5")).events)).getLast? =
      some ((["golang tutorials", "rust ownership"] : List String).length,
        (["golang tutorials", "rust ownership"] : List String).length) := by
  have h := claim_C1_amended (fun _ => true) (fun _ => ["golang tutorials", "rust ownership"])
    ("in.txt") ("d.exe") 1 (fun _ _ => .ok) defaultConfig true DiskState.missing ("T5")
    ["golang tutorials", "rust ownership"] rfl (by omega) (fun _ _ => rfl)
  exact ⟨h.1, h.2.1, h.2.2.2.2.1, h.2.2.2.2.2.2.2 (by decide)⟩

/-- Claim C2 amended: a phrase whose attempts all time out is attempted
exactly max_retries times in total, at attempt indices zero through
max_retries minus one (the first attempt counts toward the budget, so not
one plus max_retries), with a retry status message after each timed-out
attempt; the retry counter restarts at zero for each phrase, so an
all-timeout run over N phrases performs N times max_retries attempts,
completes nothing and raises nothing. -/
theorem claim_C2_amended (isfile : String → Bool) (readLines : String → List String)
    (sf dp : String) (maxRetries : Nat) (env : Nat → Nat → Outcome)
    (cfg : JObj) (saveOk : Bool) (disk : DiskState) (now : String)
    (searches : List String)
    (hv : validatePhase isfile readLines sf dp = .ok searches)
    (henv : ∀ p a, env p a = .timeout) :
    (perform_search isfile readLines sf dp true maxRetries env (fun _ => true)
        cfg saveOk disk now).events = timeoutRunEvents maxRetries 1 searches.length ∧
    (perform_search isfile readLines sf dp true maxRetries env (fun _ => true)
        cfg saveOk disk now).completed = 0 ∧
    (perform_search isfile readLines sf dp true maxRetries env (fun _ => true)
        cfg saveOk disk now).raised = none ∧
    (perform_search isfile readLines sf dp true maxRetries env (fun _ => true)
        cfg saveOk disk now).finalStatus = some (0, searches.length) ∧
    (attemptsOf ((perform_search isfile readLines sf dp true maxRetries env (fun _ => true)
        cfg saveOk disk now).events)).length = searches.length * maxRetries := by
  have hnf : ∀ j, j < searches.length →
      (phraseRun (env (1 - 1 + j)) (1 + j) searches.length maxRetries).2 = false := by
    intro j hj
    rw [phraseRun_timeout (env (1 - 1 + j)) (1 + j) searches.length maxRetries
      (henv (1 - 1 + j))]
  obtain ⟨hc, he, hf⟩ := forPhrases_nofault env searches.length maxRetries searches.length 1
    ⟨0, 0, [], none⟩ (by omega) hnf
  rw [sumCompleted_timeout env searches.length maxRetries henv] at hc
  rw [joinEvents_timeout env searches.length maxRetries henv] at he
  have hE : (perform_search isfile readLines sf dp true maxRetries env (fun _ => true)
      cfg saveOk disk now).events = timeoutRunEvents maxRetries 1 searches.length := by
    simp [perform_search, hv, he]
  refine ⟨hE, ?_, ?_, ?_, ?_⟩
  · simp [perform_search, hv, hc]
  · simp [perform_search, hv, hf]
  · simp [perform_search, hv, hc]
  · rw [hE, attemptsOf_timeoutRunEvents]

/-- Witness for the amended claim C2 on a concrete one-phrase file with
max_retries two and every attempt timing out. -/
theorem claim_C2_amended_witness :
    (perform_search (fun _ => true) (fun _ => ["alpha"]) ("s.txt") ("d.exe")
        true 2 (fun _ _ => .timeout) (fun _ => true)
        defaultConfig true DiskState.missing ("T6")).events =
      timeoutRunEvents 2 1 (["alpha"] : List String).length ∧
    (perform_search (fun _ => true) (fun _ => ["alpha"]) ("s.txt") ("d.exe")
        true 2 (fun _ _ => .timeout) (fun _ => true)
        defaultConfig true DiskState.missing ("T6")).completed = 0 ∧
    (perform_search (fun _ => true) (fun _ => ["alpha"]) ("s.txt") ("d.exe")
        true 2 (fun _ _ => .timeout) (fun _ => true)
        defaultConfig true DiskState.missing ("T6")).raised = none ∧
    (perform_search (fun _ => true) (fun _ => ["alpha"]) ("s.txt") ("d.exe")
        true 2 (fun _ _ => .timeout) (fun _ => true)
        defaultConfig true DiskState.missing ("T6")).finalStatus =
      some (0, (["alpha"] : List String).length) ∧
    (attemptsOf ((perform_search (fun _ => true) (fun _ => ["alpha"]) ("s.txt") ("d.exe")
        true 2 (fun _ _ => .timeout) (fun _ => true)
        defaultConfig true DiskState.missing ("T6")).events)).length =
      (["alpha"] : List String).length * 2 :=
  claim_C2_amended (fun _ => true) (fun _ => ["alpha"]) ("s.txt") ("d.exe") 2
    (fun _ _ => .timeout) defaultConfig true DiskState.missing ("T6")
    ["alpha"] rfl (fun _ _ => rfl)

/-- Claim C5: a driver fault at phrase k aborts the run at once: the run
raises the session fault, phrase k sees no further attempt and no phrase
after k is touched (every event concerns a phrase up to k), the completed
count is the sum of what the phrases before k completed, and the final
status reports that count over the total. -/
theorem claim_C5 (isfile : String → Bool) (readLines : String → List String)
    (sf dp : String) (maxRetries : Nat) (env : Nat → Nat → Outcome)
    (cfg : JObj) (saveOk : Bool) (disk : DiskState) (now : String)
    (searches : List String) (k : Nat)
    (hv : validatePhase isfile readLines sf dp = .ok searches)
    (hk1 : 1 ≤ k) (hk2 : k ≤ searches.length)
    (hpre : ∀ p, p < k - 1 →
      (phraseRun (env p) (p + 1) searches.length maxRetries).2 = false)
    (hfault : (phraseRun (env (k - 1)) k searches.length maxRetries).2 = true) :
    (perform_search isfile readLines sf dp true maxRetries env (fun _ => true)
        cfg saveOk disk now).raised = some .sessionFault ∧
    (perform_search isfile readLines sf dp true maxRetries env (fun _ => true)
        cfg saveOk disk now).completed =
      sumCompleted env searches.length maxRetries 1 (k - 1) ∧
    (perform_search isfile readLines sf dp true maxRetries env (fun _ => true)
        cfg saveOk disk now).events =
      joinEvents env searches.length maxRetries 1 (k - 1) ++
        (phraseRun (env (k - 1)) k searches.length maxRetries).1.events ∧
    (perform_search isfile readLines sf dp true maxRetries env (fun _ => true)
        cfg saveOk disk now).finalStatus =
      some ((perform_search isfile readLines sf dp true maxRetries env (fun _ => true)
        cfg saveOk disk now).completed, searches.length) ∧
    (∀ e, e ∈ (perform_search isfile readLines sf dp true maxRetries env (fun _ => true)
        cfg saveOk disk now).events → evPhrase e ≤ k) := by
  have e1 : (1 : Nat) - 1 + (k - 1) = k - 1 := by omega
  have e2 : 1 + (k - 1) = k := by omega
  have hpre2 : ∀ j, j < k - 1 →
      (phraseRun (env (1 - 1 + j)) (1 + j) searches.length maxRetries).2 = false := by
    intro j hj
    have hh := hpre j hj
    have f1 : (1 : Nat) - 1 + j = j := by omega
    have f2 : 1 + j = j + 1 := by omega
    rw [f1, f2]
    exact hh
  have hfault2 : (phraseRun (env (1 - 1 + (k - 1))) (1 + (k - 1))
      searches.length maxRetries).2 = true := by
    rw [e1, e2]
    exact hfault
  obtain ⟨hc, he, hf⟩ := forPhrases_fault env searches.length maxRetries (k - 1)
    searches.length 1 ⟨0, 0, [], none⟩ (by omega) (by omega) hpre2 hfault2
  rw [e2] at he hf
  have hE : (perform_search isfile readLines sf dp true maxRetries env (fun _ => true)
      cfg saveOk disk now).events =
      joinEvents env searches.length maxRetries 1 (k - 1) ++
        (phraseRun (env (k - 1)) k searches.length maxRetries).1.events := by
    simp [perform_search, hv, he]
  refine ⟨?_, ?_, hE, ?_, ?_⟩
  · simp [perform_search, hv, hf, e2]
  · simp [perform_search, hv, hc]
  · simp [perform_search, hv]
  · intro e hmem
    rw [hE] at hmem
    rcases List.mem_append.mp hmem with hin | hin
    · have hb := joinEvents_phrase env searches.length maxRetries (k - 1) 1 e hin
      omega
    · have hb := whileAttempts_events_phrase (env (k - 1)) (fun _ => true) k
        searches.length maxRetries maxRetries 0 initState e hin
      rcases hb with hb | hb
      · simp [initState] at hb
      · omega

/-- Witness for claim C5 on a concrete three-phrase file in which the
first phrase succeeds and the second faults on its first attempt. -/
theorem claim_C5_witness :
    (perform_search (fun _ => true) (fun _ => ["a", "b", "c"]) ("s.txt") ("d.exe")
        true 3 (fun p _ => if p = 0 then .ok else .fault) (fun _ => true)
        defaultConfig true DiskState.missing ("T7")).raised = some .sessionFault ∧
    (perform_search (fun _ => true) (fun _ => ["a", "b", "c"]) ("s.txt") ("d.exe")
        true 3 (fun p _ => if p = 0 then .ok else .fault) (fun _ => true)
        defaultConfig true DiskState.missing ("T7")).completed =
      sumCompleted (fun p _ => if p = 0 then .ok else .fault)
        (["a", "b", "c"] : List String).length 3 1 (2 - 1) ∧
    (perform_search (fun _ => true) (fun _ => ["a", "b", "c"]) ("s.txt") ("d.exe")
        true 3 (fun p _ => if p = 0 then .ok else .fault) (fun _ => true)
        defaultConfig true DiskState.missing ("T7")).events =
      joinEvents (fun p _ => if p = 0 then .ok else .fault)
          (["a", "b", "c"] : List String).length 3 1 (2 - 1) ++
        (phraseRun ((fun p _ => if p = 0 then (.ok : Outcome) else .fault) (2 - 1)) 2
          (["a", "b", "c"] : List String).length 3).1.events ∧
    (perform_search (fun _ => true) (fun _ => ["a", "b", "c"]) ("s.txt") ("d.exe")
        true 3 (fun p _ => if p = 0 then .ok else .fault) (fun _ => true)
        defaultConfig true DiskState.missing ("T7")).finalStatus =
      some ((perform_search (fun _ => true) (fun _ => ["a", "b", "c"]) ("s.txt") ("d.exe")
        true 3 (fun p _ => if p = 0 then .ok else .fault) (fun _ => true)
        defaultConfig true DiskState.missing ("T7")).completed,
        (["a", "b", "c"] : List String).length) := by
  have h := claim_C5 (fun _ => true) (fun _ => ["a", "b", "c"]) ("s.txt") ("d.exe") 3
    (fun p _ => if p = 0 then .ok else .fault) defaultConfig true DiskState.missing ("T7")
    ["a", "b", "c"] 2 rfl (by omega) (by decide)
    (by
      intro p hp
      have hp0 : p = 0 := by omega
      subst hp0
      decide)
    (by decide)
  exact ⟨h.1, h.2.1, h.2.2.1, h.2.2.2.1⟩

end BingAuto
